import Mathlib

/-!
Verification of `scripts/metric.py` (zettair 0.9.3), a build-time compiler
turning metric description files into C code.  The Python 2 source is embedded
shallowly: strings become `List Char`, Python dicts become association lists,
`sys.exit(2)` becomes an `Except` error, and `print`ed `#error` diagnostics
(which do not stop the run) are collected in a `List Diag`.
-/

namespace Metric

/-- Python `str.isspace()` on a single ASCII character (the whitespace
    characters recognised by CPython 2 for ASCII strings). -/
def py_isspace (c : Char) : Bool :=
  c = ' ' || c = '\t' || c = '\n' || c = '\x0b' || c = '\x0c' || c = '\r'

/-- Python `str.isspace()` on a whole token: nonempty and all whitespace. -/
def pyStrIsspace (t : List Char) : Bool :=
  !t.isEmpty && t.all py_isspace

/-- `isop`: is a character a C operator character (not including semicolon).
    The source returns 1/0; we use Bool. -/
def isop (c : Char) : Bool :=
  c = '-' || c = '+' || c = ',' || c = '=' || c = '(' || c = ')' ||
  c = '?' || c = ':' || c = '*' || c = '/' || c = '~' || c = '!' ||
  c = '^' || c = '|' || c = '&' || c = '[' || c = ']' || c = '{' ||
  c = '}' || c = '%' || c = '<' || c = '>'

/-- `isdecl`: is a word a C type-qualifier token. -/
def isdecl (w : List Char) : Bool :=
  w = "float".data || w = "double".data || w = "long".data ||
  w = "unsigned".data || w = "signed".data || w = "const".data ||
  w = "volatile".data || w = "int".data || w = "short".data ||
  w = "char".data || w = "register".data || w = "void".data ||
  w = "union".data || w = "struct".data || w = "*".data ||
  w = "**".data || w = "***".data || w = "****".data

/-- Character class of a word character in `ctok`: not an operator,
    not `;`, not whitespace. -/
def wordChar (c : Char) : Bool :=
  !isop c && c ≠ ';' && !py_isspace c

/-- `ctok` with the running character counter `char` made explicit.
    Returns the token list and the list of start offsets.  Each branch of the
    source's while-loop greedily extends a run within the character's class;
    `;` is always a single-character token.  The leading `Nat` is fuel for
    structural recursion; each loop iteration consumes at least one
    character, so fuel equal to the line length always suffices (the zero
    case is unreachable from `ctok`). -/
def ctokAux : Nat → List Char → Nat → List (List Char) × List Nat
  | 0, _, _ => ([], [])
  | _ + 1, [], _ => ([], [])
  | fuel + 1, c :: rest, char =>
    if py_isspace c then
      let run := rest.takeWhile py_isspace
      let out := ctokAux fuel (rest.dropWhile py_isspace) (char + run.length + 1)
      ((c :: run) :: out.1, char :: out.2)
    else if isop c then
      let run := rest.takeWhile isop
      let out := ctokAux fuel (rest.dropWhile isop) (char + run.length + 1)
      ((c :: run) :: out.1, char :: out.2)
    else if c = ';' then
      let out := ctokAux fuel rest (char + 1)
      ([c] :: out.1, char :: out.2)
    else
      let run := rest.takeWhile wordChar
      let out := ctokAux fuel (rest.dropWhile wordChar) (char + run.length + 1)
      ((c :: run) :: out.1, char :: out.2)

/-- `ctok(line)`. -/
def ctok (line : List Char) : List (List Char) × List Nat :=
  ctokAux line.length line 0

/-- `ctok_nspace(line)`: `ctok` with whitespace tokens filtered out,
    keeping each surviving token's offset. -/
def ctok_nspace (line : List Char) : List (List Char) × List Nat :=
  let tc := ctok line
  let filtered := (tc.1.zip tc.2).filter (fun x => !pyStrIsspace x.1)
  (filtered.map Prod.fst, filtered.map Prod.snd)

/-- Is `pat` an initial segment of `l`? (used for substring search). -/
def leadsWith : List Char → List Char → Bool
  | [], _ => true
  | _ :: _, [] => false
  | a :: as, b :: bs => a = b && leadsWith as bs

def pyFindAux : List Char → List Char → Nat → Option Nat
  | l, pat, i =>
    if leadsWith pat l then some i
    else
      match l with
      | [] => none
      | _ :: rest => pyFindAux rest pat (i + 1)

/-- Python `s.find(pat)`: index of the first occurrence, `-1` if absent. -/
def pyFind (s pat : List Char) : Int :=
  match pyFindAux s pat 0 with
  | some n => (n : Int)
  | none => -1

/-- Python `s.lstrip()` (whitespace). -/
def pyLstrip (l : List Char) : List Char := l.dropWhile py_isspace

/-- Python `s.rstrip()` (whitespace). -/
def pyRstrip (l : List Char) : List Char :=
  (l.reverse.dropWhile py_isspace).reverse

/-- Python `s.strip()` (whitespace). -/
def pyStrip (l : List Char) : List Char := pyLstrip (pyRstrip l)

/-- Python `l[0:n]` where `n` may be negative (counts from the end). -/
def pySlice0 (l : List Char) (n : Int) : List Char :=
  if 0 ≤ n then l.take n.toNat else l.take (l.length - n.natAbs)

/-- ' ' * n with Python semantics (negative yields empty). -/
def pyMulSpace (n : Int) : List Char := List.replicate n.toNat ' '

/-- The base metric name: last '/'-separated path component up to the
    first '.' (source: `path = args[0].split('/')`, `parts = path[-1].split('.')`). -/
def baseName (p : List Char) : List Char :=
  let path := List.splitOn '/' p
  let parts := List.splitOn '.' (path.getLastD [])
  match parts with
  | [] => p
  | h :: _ => h

/-- The `Decl` record.  The source field `macro` is here called `mtext`. -/
structure Decl where
  pre : List Char
  lineno : Int
  name : List Char
  type : List Char
  init : List Char
  fninit : List Char
  level : Int
  mtext : List Char
  comment : List Char
  contrib : List Char
  ex : List Char
  deriving DecidableEq, Inhabited

/-- A Python dict mapping names to declarations, as an association list
    in insertion order. -/
abbrev Namespace := List (List Char × Decl)

def pyDictHas (n : Namespace) (k : List Char) : Bool := n.any (fun p => p.1 = k)

def pyDictGet? (n : Namespace) (k : List Char) : Option Decl :=
  (n.find? (fun p => p.1 = k)).map Prod.snd

/-- `n[k] = v`: overwrite in place if present, else append. -/
def pyDictSet (n : Namespace) (k : List Char) (v : Decl) : Namespace :=
  if pyDictHas n k then n.map (fun p => if p.1 = k then (k, v) else p)
  else n ++ [(k, v)]

/-- A used-set: a Python dict whose keys and values coincide, so modelled
    as the list of keys in insertion order. -/
abbrev UsedSet := List (List Char)

/-- `u[t] = t`. -/
def usetSet (u : UsedSet) (t : List Char) : UsedSet :=
  if t ∈ u then u else u ++ [t]

/-- `#error` lines the source prints WITHOUT exiting (the run continues;
    the directive lands in the generated output). -/
inductive Diag
  | multilineComment
  | assigningToConst
  | accumulatorRvalue
  deriving DecidableEq

/-- Fatal outcomes: `sys.exit(2)` calls, unhandled IndexError crashes, and
    `diverge` for the statement-extension loop spinning forever at EOF. -/
inductive Err
  | duplicateDecl
  | missingSemicolon
  | parseDecl
  | unexpectedEOF
  | indexError
  | diverge
  deriving DecidableEq

deriving instance DecidableEq for Except

/-- A slot of the local Python list `used` inside `ins_decl`: either still
    the i-th caller dict, or (after `used[0] = t`) a plain string. -/
abbrev Slot := Sum Nat (List Char)

/-- Caller-visible result of a successful `ins_decl`: the updated
    namespaces, the updated used-set dicts, and (for observability) the
    final value of the function-local list variable `used`, whose slot 0 the
    contrib loop overwrites with a string instead of inserting into the dict. -/
structure InsOut where
  nss : List Namespace
  usets : List UsedSet
  slots : List Slot
  deriving DecidableEq

/-- Stage one of the comment stripping in `ins_decl`: a trailing `#` comment
    is removed only when `#` occurs at position > 0.  Returns
    (comment, line). -/
def hashStrip (line : List Char) : List Char × List Char :=
  let pos := pyFind line ("#".data)
  if pos > 0 then (line.drop (pos.toNat + 1), line.take pos.toNat)
  else ([], line)

/-- Stage two: a `/*...*/` comment is removed when `/*` occurs at
    position > 0 and `*/` occurs at position > 0; with `/*` present but no
    such `*/`, the source prints the multiline-comment `#error` WITHOUT
    exiting and leaves the line unchanged. -/
def blockStrip (comment line1 : List Char) :
    List Char × List Char × List Diag :=
  let pos1 := pyFind line1 ("/*".data)
  if pos1 > 0 then
    let pos2 := pyFind line1 ("*/".data)
    if pos2 > 0 then
      let pos2e := pos2.toNat + 2
      ((line1.drop (pos1.toNat + 2)).take (pos2e - 2 - (pos1.toNat + 2)),
       line1.take pos1.toNat ++ line1.drop pos2e, [])
    else (comment, line1, [Diag.multilineComment])
  else (comment, line1, [])

/-- Both comment-stripping stages of `ins_decl`. -/
def stripComments (line : List Char) : List Char × List Char × List Diag :=
  let h := hashStrip line
  blockStrip h.1 h.2

/-- The leading type-token consumption loop of `ins_decl`.  `struct` and
    `union` additionally consume the following tag token; if none follows,
    the source raises IndexError (`none`). -/
def typeSpan : List (List Char) → List Char → Option (List Char × List (List Char))
  | [], acc => some (acc, [])
  | t :: rest, acc =>
    if isdecl t then
      if t = "struct".data || t = "union".data then
        match rest with
        | [] => none
        | t2 :: rest2 => typeSpan rest2 (acc ++ t ++ [' '] ++ t2 ++ [' '])
      else typeSpan rest (acc ++ t ++ [' '])
    else some (acc, t :: rest)

/-- The accepting tail of `ins_decl`, after the name token has been
    found, collisions ruled out, the trailing `;` popped and the initializer
    start offset computed.  `toks2` is the token list with `;` removed. -/
def insAccept (namespaces : List Namespace) (used : List UsedSet)
    (line comment : List Char) (level : Int) (mtext : List Char)
    (lineno : Int) (fninit pre contrib ex : List Char)
    (ty : List Char) (name0 : List Char) (toks2 : List (List Char))
    (off : Nat) : InsOut :=
  -- init = line[chars[len(chars)-len(toks)]:]; init = init[0:init.find(';')]
  let init1 := line.drop off
  let init := pySlice0 init1 (pyFind init1 (";".data))
  -- for t in toks[1:]: for n in namespaces: if t in n: for u in used: u[t]=t
  let usets := toks2.tail.foldl
    (fun us t => namespaces.foldl
      (fun us2 n => if pyDictHas n t then us2.map (fun u => usetSet u t) else us2)
      us)
    used
  let d : Decl := ⟨pre, lineno, name0, pyStrip ty, pyStrip init, fninit,
                   level, mtext, pyStrip comment, contrib, ex⟩
  let nss := namespaces.map (fun n => pyDictSet n name0 d)
  -- contrib loop: `used[0] = t` overwrites slot 0 of the LOCAL list with a
  -- string; no dict is written, so the caller-visible used-sets are `usets`.
  let ctoks := (ctok_nspace contrib).1
  let slots := ctoks.foldl
    (fun sl t => if pyDictHas (nss.headD []) t then sl.set 0 (Sum.inr t) else sl)
    ((List.range used.length).map Sum.inl)
  ⟨nss, usets, slots⟩

/-- The body of `ins_decl` after comment stripping: tokenisation, type
    consumption, collision check, terminator check, initializer slicing and
    acceptance. -/
def insDeclRest (namespaces : List Namespace) (used : List UsedSet)
    (line2 comment : List Char) (level : Int) (mtext : List Char)
    (lineno : Int) (fninit pre contrib ex : List Char) : Except Err InsOut :=
  let tc := ctok_nspace (pyRstrip line2)
  match typeSpan tc.1 [] with
  | none => Except.error Err.indexError
  | some (ty, toks1) =>
    match toks1 with
    | [] => Except.error Err.parseDecl
    | t0 :: _ =>
      if namespaces.any (fun n => pyDictHas n t0) then
        Except.error Err.duplicateDecl
      else if toks1.getLast? = some (";".data) then
        let toks2 := toks1.dropLast
        match tc.2.get? (tc.2.length - toks2.length) with
        | none => Except.error Err.indexError
        | some off =>
          Except.ok (insAccept namespaces used line2 comment level mtext
            lineno fninit pre contrib ex ty t0 toks2 off)
      else Except.error Err.missingSemicolon

/-- `ins_decl(namespaces, used, line, level, macro, lineno, fninit, pre,
    contrib, ex)`.  The Decl object is inserted into every namespace (in the
    source the same object is shared; the claims below each concern a single
    namespace, where the value translation is exact). -/
def ins_decl (namespaces : List Namespace) (used : List UsedSet)
    (line : List Char) (level : Int) (mtext : List Char) (lineno : Int)
    (fninit pre contrib ex : List Char) : List Diag × Except Err InsOut :=
  let st := stripComments line
  (st.2.2,
   insDeclRest namespaces used st.2.1 st.1 level mtext lineno fninit pre
     contrib ex)

/-- Result of `process_decl` / `levelise`: the `[lineno, line]` cursor the
    source returns, together with the updated state. -/
structure DeclScanOut where
  lineno : Int
  line : List Char
  decl : Namespace
  du : UsedSet
  files : List (List Char)
  deriving DecidableEq

/-- What one pass of the `process_decl` loop does with the current line. -/
inductive ScanStep
  | err (ds : List Diag) (e : Err)
  | done (ds : List Diag)
  | next (ds : List Diag) (decl : Namespace) (du : UsedSet)
  deriving DecidableEq

/-- One pass of the `process_decl` loop body.  The empty current line is
    EOF (the loop exits into the unexpected-EOF fatal branch); a bare `}`
    or a non-blank non-`#` line whose first token is not a type qualifier
    ends the scan (`done`); a declaration line is fed to `ins_decl` at
    level 1 and a blank or `#` line is skipped, both continuing with the
    next line (`next`). -/
def process_decl_line (line : List Char) (lineno : Int) (decl : Namespace)
    (du : UsedSet) : ScanStep :=
  if line = [] then ScanStep.err [] Err.unexpectedEOF
  else if pyRstrip line = "\x7d".data then ScanStep.done []
  else if pyStrip line ≠ [] ∧ (pyStrip line).headD ' ' ≠ '#' then
    match (ctok_nspace line).1 with
    | [] => ScanStep.err [] Err.indexError
    | t :: _ =>
      if isdecl t then
        match ins_decl [decl] [du] line 1 [] lineno [] [] []
            ("user declared quantity".data) with
        | (ds, Except.error e) => ScanStep.err ds e
        | (ds, Except.ok out) =>
          match out.nss, out.usets with
          | [d2], [u2] => ScanStep.next ds d2 u2
          | _, _ => ScanStep.err ds Err.indexError
      else ScanStep.done []
  else ScanStep.next [] decl du

/-- The `process_decl` loop, current line in hand; `files` is the rest of
    the file, and `file.readline()` past its end yields the empty string. -/
def process_decl_go (line : List Char) (lineno : Int) (decl : Namespace)
    (du : UsedSet) (files : List (List Char)) :
    List Diag × Except Err DeclScanOut :=
  match process_decl_line line lineno decl du with
  | ScanStep.err ds e => (ds, Except.error e)
  | ScanStep.done ds => (ds, Except.ok ⟨lineno, line, decl, du, files⟩)
  | ScanStep.next ds d2 u2 =>
    match files with
    | [] => (ds, Except.error Err.unexpectedEOF)
    | l :: rest =>
      let r := process_decl_go l (lineno + 1) d2 u2 rest
      (ds ++ r.1, r.2)

/-- `process_decl(file, decl, decl_used, lineno)`: reads the next line and
    runs the scan loop. -/
def process_decl (files : List (List Char)) (decl : Namespace) (du : UsedSet)
    (lineno : Int) : List Diag × Except Err DeclScanOut :=
  match files with
  | [] => ([], Except.error Err.unexpectedEOF)
  | l :: rest => process_decl_go l (lineno + 1) decl du rest

/-- A statement list entry `[lineno, level, text]`. -/
structure Stmt where
  lineno : Int
  level : Int
  text : List Char
  deriving DecidableEq, Inhabited

/-- The eight assignment operators recognised by `levelise`. -/
def assignOps : List (List Char) :=
  ["=".data, "+=".data, "-=".data, "/=".data, "*=".data, "&=".data,
   "|=".data, "^=".data]

/-- The rvalue scan shared by both statement branches of `levelise`:
    for each token known in `decl`, record it used; a level-6 token prints
    the accumulator-rvalue `#error` (without exiting), otherwise a higher
    level raises the running level. -/
def scanOperands (decl : Namespace) :
    List (List Char) → UsedSet → Int → List Diag → UsedSet × Int × List Diag
  | [], u, lvl, ds => (u, lvl, ds)
  | t :: ts, u, lvl, ds =>
    match pyDictGet? decl t with
    | none => scanOperands decl ts u lvl ds
    | some d =>
      let u2 := usetSet u t
      if d.level = 6 then
        scanOperands decl ts u2 lvl (ds ++ [Diag.accumulatorRvalue])
      else if d.level > lvl then scanOperands decl ts u2 d.level ds
      else scanOperands decl ts u2 lvl ds

/-- The logical-line extension loop: while the last token is not `;`, read
    another physical line and append its tokens.  At EOF `readline` returns
    the empty string forever, whose token list is empty, so the loop never
    terminates: modelled as `none`.  Returns the extended tokens, the
    extended text, the final line number and the count of lines consumed. -/
def extendLine : List (List Char) → List Char → Int → List (List Char) →
    Option (List (List Char) × List Char × Int × Nat)
  | toks, line, lineno, files =>
    if toks.getLastD [] = ";".data then some (toks, line, lineno, 0)
    else
      match files with
      | [] => none
      | nline :: rest =>
        match extendLine (toks ++ (ctok_nspace nline).1)
            (pyRstrip line ++ [' '] ++ nline) (lineno + 1) rest with
        | none => none
        | some (t2, l2, n2, k) => some (t2, l2, n2, k + 1)

/-- Is the current line an assignment statement: more than two tokens, the
    first a declared name, the second an assignment operator? -/
def isAssignBranch (decl : Namespace) (toks : List (List Char)) : Bool :=
  match toks with
  | t0 :: t1 :: _ :: _ => pyDictHas decl t0 && assignOps.contains t1
  | _ => false

/-- State after one iteration of the `levelise` statement loop. -/
structure IterOut where
  lineno : Int
  decl : Namespace
  stmts : List Stmt
  used : UsedSet
  drop : Nat
  diags : List Diag
  deriving DecidableEq

/-- One iteration of the `levelise` statement loop (the current line is
    nonempty and does not rstrip to `}`).  `none` models the source's
    non-terminating extension loop at EOF. -/
def leveliseIter (line : List Char) (lineno : Int) (decl : Namespace)
    (stmts : List Stmt) (used : UsedSet) (files : List (List Char)) :
    Option IterOut :=
  let toks := (ctok_nspace line).1
  if isAssignBranch decl toks then
    match extendLine toks line lineno files with
    | none => none
    | some (toks2, line2, lineno2, k) =>
      match pyDictGet? decl (toks2.headD []) with
      | none => none
      | some target =>
        -- `#error "assigning to const quantity"` (printed, no exit); note
        -- the test is lineno == 0 while built-ins carry lineno -1
        let constDiag :=
          if target.lineno = 0 ∧ target.type.take 5 = "const".data then
            [Diag.assigningToConst]
          else []
        let u1 := usetSet used (toks2.headD [])
        let sc := scanOperands decl (toks2.drop 2) u1 1 []
        -- `decl[toks[0]].level = level` : unconditional assignment
        let decl2 :=
          if pyDictHas decl (toks2.headD []) then
            pyDictSet decl (toks2.headD []) { target with level := sc.2.1 }
          else decl
        some ⟨lineno2, decl2, stmts ++ [⟨lineno2, sc.2.1, pyStrip line2⟩],
              sc.1, k, constDiag ++ sc.2.2⟩
  else if toks ≠ [] ∧ (pyStrip line).headD ' ' = '#' then
    some ⟨lineno, decl,
          stmts ++ [⟨lineno, 1,
            "/* ".data ++ pyLstrip ((pyStrip line).drop 1) ++ " */".data⟩],
          used, 0, []⟩
  else
    let sc := scanOperands decl toks used 1 []
    some ⟨lineno, decl, stmts ++ [⟨lineno, sc.2.1, pyStrip line⟩],
          sc.1, 0, sc.2.2⟩

/-- Result of `levelise`: the `[lineno, line]` cursor plus updated state and
    the diagnostics printed along the way. -/
structure LvlOut where
  lineno : Int
  line : List Char
  decl : Namespace
  stmts : List Stmt
  used : UsedSet
  files : List (List Char)
  diags : List Diag
  deriving DecidableEq

/-- The `levelise` statement loop, current line in hand.  The leading `Nat`
    is fuel for structural recursion: every iteration pops at least the next
    physical line off `files`, so fuel `files.length + 1` always suffices
    (the zero case is unreachable from `levelise`). -/
def leveliseGo : Nat → List Char → Int → Namespace → List Stmt → UsedSet →
    List (List Char) → Except Err LvlOut
  | 0, _, _, _, _, _, _ => Except.error Err.diverge
  | fuel + 1, line, lineno, decl, stmts, used, files =>
    if line = [] ∨ pyRstrip line = "\x7d".data then
      Except.ok ⟨lineno, line, decl, stmts, used, files, []⟩
    else
      match leveliseIter line lineno decl stmts used files with
      | none => Except.error Err.diverge
      | some it =>
        match files.drop it.drop with
        | [] => Except.ok ⟨it.lineno + 1, [], it.decl, it.stmts, it.used, [],
                           it.diags⟩
        | l :: rest =>
          match leveliseGo fuel l (it.lineno + 1) it.decl it.stmts it.used
              rest with
          | Except.error e => Except.error e
          | Except.ok out =>
            Except.ok { out with diags := it.diags ++ out.diags }

/-- `levelise(file, line, lineno, decl, list, used)`. -/
def levelise (line : List Char) (lineno : Int) (decl : Namespace)
    (stmts : List Stmt) (used : UsedSet) (files : List (List Char)) :
    Except Err LvlOut :=
  leveliseGo (files.length + 1) line lineno decl stmts used files

/-- First `propagate` pass (forward): a statement containing `}` but not
    `{` inherits the previous statement's level when that is higher;
    `prevlevel` is then the (possibly updated) level. -/
def propPass1 : List Stmt → Int → List Stmt
  | [], _ => []
  | s :: rest, prev =>
    let s2 := if pyFind s.text ("\x7d".data) ≥ 0 ∧ pyFind s.text ("\x7b".data) < 0 ∧
                 prev > s.level then { s with level := prev } else s
    s2 :: propPass1 rest s2.level

/-- Second `propagate` pass.  The source builds `rev` as a shallow copy
    aliasing the same statement objects and then evaluates `rev.reverse`
    WITHOUT calling it (no parentheses), a no-op attribute access; the scan
    therefore also runs forward, in the original order, with the brace roles
    swapped. -/
def propPass2 : List Stmt → Int → List Stmt
  | [], _ => []
  | s :: rest, prev =>
    let s2 := if pyFind s.text ("\x7b".data) ≥ 0 ∧ pyFind s.text ("\x7d".data) < 0 ∧
                 prev > s.level then { s with level := prev } else s
    s2 :: propPass2 rest s2.level

/-- `propagate(statements)`. -/
def propagate (statements : List Stmt) : List Stmt :=
  propPass2 (propPass1 statements 0) 0

/-- A store of statement objects; statement lists hold references (indices)
    into it, so that in-place mutation of a statement (as `propagate`
    performs through `s[1] = prevlevel`) would be visible to every list
    holding the same object. -/
abbrev Store := List Stmt

def stGet (st : Store) (r : Nat) : Stmt := st.getD r default

/-- Substitution map `macros` used by the emitters. -/
abbrev MacMap := List (List Char × List Char)

/-- `if t in macros: write(macros[t]) else: write(t)`. -/
def macSubst (mac : MacMap) (t : List Char) : List Char :=
  match mac.find? (fun p => p.1 = t) with
  | some p => p.2
  | none => t

/-- The `print_level` loop over statement references.  Each matching
    statement is printed (dedent before a lone `}`, macro substitution per
    token, newline, indent after a lone `{`); `prevline` mirrors the dead
    `#line`-directive bookkeeping.  The store is only ever read. -/
def printLevelGo (st : Store) : List Nat → Int → Int → MacMap → Int →
    List Char → Store × Int × List Char
  | [], _, dent, _, _, out => (st, dent, out)
  | r :: rest, level, dent, mac, prevline, out =>
    let l := stGet st r
    if l.level = level then
      let prevline2 := l.lineno
      let dent1 :=
        if pyFind l.text ("\x7d".data) ≥ 0 ∧ pyFind l.text ("\x7b".data) < 0 then
          dent - 4
        else dent
      let toks := (ctok l.text).1
      let out1 := out ++ pyMulSpace dent1 ++ (toks.map (macSubst mac)).flatten
                  ++ ['\n']
      let dent2 :=
        if pyFind l.text ("\x7b".data) ≥ 0 ∧ pyFind l.text ("\x7d".data) < 0 then
          dent1 + 4
        else dent1
      printLevelGo st rest level dent2 mac prevline2 out1
    else printLevelGo st rest level dent mac prevline out

/-- `print_level(statements, level, dent, name, macros)` over a store:
    returns the store, the final local `dent`, and the text written. -/
def print_level (st : Store) (refs : List Nat) (level : Int) (dent : Int)
    (mac : MacMap) : Store × Int × List Char :=
  printLevelGo st refs level dent mac (-1) []

/-- `next_tok(toks)`: drop leading whitespace tokens. -/
def next_tok (toks : List (List Char)) : List (List Char) :=
  toks.dropWhile pyStrIsspace

lemma len_next_tok_le (l : List (List Char)) :
    (next_tok l).length ≤ l.length :=
  (List.dropWhile_sublist _).length_le

lemma len_tail_le {α : Type} (l : List α) : l.tail.length ≤ l.length := by
  cases l <;> simp

/-- The marker identifiers other than `METRIC_NAME`; their emissions draw on
    the compiled metric state and are outside this model (`none`). -/
def otherMarkers : List (List Char) :=
  ["METRIC_DEPENDS_POST".data, "METRIC_PRE".data, "METRIC_POST".data,
   "METRIC_POST_PER_DOC".data, "METRIC_DECL".data, "METRIC_PER_CALL".data,
   "METRIC_PER_DOC".data, "METRIC_CONTRIB".data]

/-- The token loop of the template-body processing (`while (len(toks))` in
    `__main__`).  A contiguous `/* METRIC_NAME */` (whitespace tokens
    between the comment delimiters skipped by `next_tok`) triggers
    `print '/* METRIC_NAME */', name,` — the canonical marker, a space and
    the metric name, no newline — and the scan resumes after the closing
    `*/`; any other token is written through unchanged.  A line matching one
    of the other eight markers yields `none` (emission not modelled here). -/
def weaveToksAux (name : List Char) : Nat → List (List Char) →
    Option (List Char)
  | _, [] => some []
  | 0, _ :: _ => none
  | fuel + 1, t0 :: rest =>
    let nt := next_tok rest
    let nnt := next_tok nt.tail
    if t0 = "/*".data ∧ nnt ≠ [] ∧ nnt.headD [] = "*/".data ∧
       nt.headD [] = "METRIC_NAME".data then
      match weaveToksAux name fuel nnt.tail with
      | none => none
      | some out => some ("/* METRIC_NAME */ ".data ++ name ++ out)
    else if t0 = "/*".data ∧ nnt ≠ [] ∧ nnt.headD [] = "*/".data ∧
       (nt.headD []) ∈ otherMarkers then
      none
    else
      match weaveToksAux name fuel rest with
      | none => none
      | some out => some (t0 ++ out)

/-- The token loop on a full token list; the fuel `toks.length` always
    suffices since every step consumes at least the head token. -/
def weaveToks (name : List Char) (toks : List (List Char)) :
    Option (List Char) :=
  weaveToksAux name toks.length toks

/-! ## Auxiliary definitions and concrete fixtures used by the theorems -/

/-- The offset list that starts at `n` and advances by each token's length. -/
def offsetsFrom : Nat → List (List Char) → List Nat
  | _, [] => []
  | n, t :: ts => n :: offsetsFrom (n + t.length) ts

/-- `Except` to `Option`. -/
def exOk? {α : Type} : Except Err α → Option α
  | Except.ok a => some a
  | Except.error _ => none

/-- A declaration record with the fields the level engine inspects. -/
def mkDecl (nm : List Char) (lvl ln : Int) (ty : List Char) : Decl :=
  ⟨[], ln, nm, ty, [], [], lvl, [], [], [], []⟩

/-- Fixture for C2: `s` user-declared, `f_dt` a level-3 built-in, `f_t` a
    level-1 built-in. -/
def declLevelFix : Namespace :=
  [("s".data, mkDecl ("s".data) 1 5 ("float".data)),
   ("f_dt".data, mkDecl ("f_dt".data) 3 (-1) ("const unsigned int".data)),
   ("f_t".data, mkDecl ("f_t".data) 1 (-1) ("const unsigned int".data))]

/-- Fixture for C6: the built-in `f_t`, `const` type, line number -1 as in
    the source's built-in registrations. -/
def declConstFix : Namespace :=
  [("f_t".data, mkDecl ("f_t".data) 1 (-1) ("const unsigned int".data))]

/-- Fixture for C1: `x` user-declared at level 1, `a` a level-6
    (accumulator-class) quantity. -/
def declAccFix : Namespace :=
  [("x".data, mkDecl ("x".data) 1 5 ("float".data)),
   ("a".data, mkDecl ("a".data) 6 (-1) ("float".data))]

/-- Fixture for C4: a namespace already holding `x`. -/
def nsContribFix : Namespace := [("x".data, mkDecl ("x".data) 1 (-1) ("float".data))]

def markerToks : List (List Char) :=
  ["/*".data, " ".data, "METRIC_NAME".data, " ".data, "*/".data]

/-- Fixture for C5: the declaration record produced for `float s;` scanned
    at line 2 of a body. -/
def sDeclFix : Decl :=
  ⟨[], 2, "s".data, "float".data, [], [], 1, [], [], [],
   "user declared quantity".data⟩

/-- Fixture for C5: the full scanner result on the body
    `  float s;` / `}`. -/
def declScanFix : DeclScanOut :=
  ⟨3, "\x7d\n".data, [("s".data, sDeclFix)], [], []⟩

lemma ctokAux_flatten : ∀ (fuel : Nat) (l : List Char) (n : Nat),
    l.length ≤ fuel → (ctokAux fuel l n).1.flatten = l := by
  intro fuel
  induction fuel with
  | zero =>
    intro l n h
    have hl : l = [] := List.length_eq_zero.mp (Nat.le_zero.mp h)
    subst hl
    simp [ctokAux]
  | succ fuel ih =>
    intro l n h
    cases l with
    | nil => simp [ctokAux]
    | cons c rest =>
      simp only [List.length_cons, Nat.succ_le_succ_iff] at h
      by_cases h1 : py_isspace c
      · have hlen : (rest.dropWhile py_isspace).length ≤ fuel :=
          le_trans (List.dropWhile_sublist _).length_le h
        simp only [ctokAux]
        rw [if_pos h1]
        simp only [List.flatten_cons, List.cons_append, ih _ _ hlen]
        rw [List.takeWhile_append_dropWhile]
      · by_cases h2 : isop c
        · have hlen : (rest.dropWhile isop).length ≤ fuel :=
            le_trans (List.dropWhile_sublist _).length_le h
          simp only [ctokAux]
          rw [if_neg (by simp [h1]), if_pos h2]
          simp only [List.flatten_cons, List.cons_append, ih _ _ hlen]
          rw [List.takeWhile_append_dropWhile]
        · by_cases h3 : c = ';'
          · simp only [ctokAux]
            rw [if_neg (by simp [h1]), if_neg (by simp [h2]), if_pos h3]
            simp only [List.flatten_cons, List.cons_append, List.nil_append,
              ih _ _ h, h3]
          · have hlen : (rest.dropWhile wordChar).length ≤ fuel :=
              le_trans (List.dropWhile_sublist _).length_le h
            simp only [ctokAux]
            rw [if_neg (by simp [h1]), if_neg (by simp [h2]), if_neg h3]
            simp only [List.flatten_cons, List.cons_append, ih _ _ hlen]
            rw [List.takeWhile_append_dropWhile]

lemma ctokAux_offsets : ∀ (fuel : Nat) (l : List Char) (n : Nat),
    l.length ≤ fuel →
    (ctokAux fuel l n).2 = offsetsFrom n (ctokAux fuel l n).1 := by
  intro fuel
  induction fuel with
  | zero =>
    intro l n h
    simp [ctokAux, offsetsFrom]
  | succ fuel ih =>
    intro l n h
    cases l with
    | nil => simp [ctokAux, offsetsFrom]
    | cons c rest =>
      simp only [List.length_cons, Nat.succ_le_succ_iff] at h
      by_cases h1 : py_isspace c
      · have hlen : (rest.dropWhile py_isspace).length ≤ fuel :=
          le_trans (List.dropWhile_sublist _).length_le h
        simp only [ctokAux]
        rw [if_pos h1]
        simp only [offsetsFrom, List.length_cons, ih _ _ hlen]
        rw [Nat.add_assoc]
      · by_cases h2 : isop c
        · have hlen : (rest.dropWhile isop).length ≤ fuel :=
            le_trans (List.dropWhile_sublist _).length_le h
          simp only [ctokAux]
          rw [if_neg (by simp [h1]), if_pos h2]
          simp only [offsetsFrom, List.length_cons, ih _ _ hlen]
          rw [Nat.add_assoc]
        · by_cases h3 : c = ';'
          · simp only [ctokAux]
            rw [if_neg (by simp [h1]), if_neg (by simp [h2]), if_pos h3]
            simp only [offsetsFrom, List.length_cons, List.length_nil,
              ih _ _ h]
          · have hlen : (rest.dropWhile wordChar).length ≤ fuel :=
              le_trans (List.dropWhile_sublist _).length_le h
            simp only [ctokAux]
            rw [if_neg (by simp [h1]), if_neg (by simp [h2]), if_neg h3]
            simp only [offsetsFrom, List.length_cons, ih _ _ hlen]
            rw [Nat.add_assoc]

lemma offsetsFrom_length : ∀ (ts : List (List Char)) (n : Nat),
    (offsetsFrom n ts).length = ts.length := by
  intro ts
  induction ts with
  | nil => intro n; simp [offsetsFrom]
  | cons t ts ih => intro n; simp [offsetsFrom, ih]

lemma offsetsFrom_getD : ∀ (ts : List (List Char)) (n : Nat) (i : Nat),
    i < ts.length →
    (offsetsFrom n ts).getD i 0 = n + ((ts.take i).map List.length).sum := by
  intro ts
  induction ts with
  | nil => intro n i h; simp at h
  | cons t ts ih =>
    intro n i h
    cases i with
    | zero => simp [offsetsFrom]
    | succ i =>
      simp only [List.length_cons, Nat.succ_lt_succ_iff] at h
      simp only [offsetsFrom, List.getD_cons_succ]
      rw [ih (n + t.length) i h]
      simp [List.take_succ_cons, Nat.add_assoc]

/-- C9: the tokenizer is lossless and offset-correct: concatenating the
    tokens of `ctok line`, in order, reproduces `line` exactly, and the i-th
    recorded offset equals the character index (the total length of the
    preceding tokens) at which the i-th token starts. -/
theorem ctok_lossless_and_offset_correct (line : List Char) :
    (ctok line).1.flatten = line ∧
    ∀ (i : Nat), i < (ctok line).2.length →
      (ctok line).2.getD i 0 = (((ctok line).1.take i).map List.length).sum := by
  constructor
  · exact ctokAux_flatten line.length line 0 le_rfl
  · intro i hi
    have h2 := ctokAux_offsets line.length line 0 le_rfl
    have hl : i < (ctokAux line.length line 0).1.length := by
      simp only [ctok] at hi
      rw [h2, offsetsFrom_length] at hi
      exact hi
    simp only [ctok]
    rw [h2, offsetsFrom_getD _ 0 i hl, Nat.zero_add]

/-- Witness for C9 at a concrete line and index. -/
theorem ctok_lossless_and_offset_correct_witness :
    ((ctok ("x = 1;".data)).1.flatten = "x = 1;".data) ∧
    (2 < (ctok ("x = 1;".data)).2.length) ∧
    ((ctok ("x = 1;".data)).2.getD 2 0 =
      (((ctok ("x = 1;".data)).1.take 2).map List.length).sum) :=
  ⟨(ctok_lossless_and_offset_correct ("x = 1;".data)).1, by decide,
   (ctok_lossless_and_offset_correct ("x = 1;".data)).2 2 (by decide)⟩

lemma printLevelGo_store (st : Store) : ∀ (refs : List Nat)
    (level dent : Int) (mac : MacMap) (prevline : Int) (out : List Char),
    (printLevelGo st refs level dent mac prevline out).1 = st := by
  intro refs
  induction refs with
  | nil => intro level dent mac prevline out; simp [printLevelGo]
  | cons r rest ih =>
    intro level dent mac prevline out
    simp only [printLevelGo]
    by_cases h : (stGet st r).level = level
    · rw [if_pos h]
      exact ih _ _ _ _ _
    · rw [if_neg h]
      exact ih _ _ _ _ _

/-- C10: emitting a statement list is a pure read: `print_level` returns the
    statement store unchanged, so no statement's line, level or text is
    mutated, and emitting the same list twice (as the decode list is at the
    PER_DOC and CONTRIB markers) processes identical statements both times. -/
theorem print_level_frame (st : Store) (refs : List Nat) (level dent : Int)
    (mac : MacMap) : (print_level st refs level dent mac).1 = st := by
  simp only [print_level]
  exact printLevelGo_store st refs level dent mac (-1) []

/-- C3 (code evaluation): with statements `if (x) {` (level 1),
    `y = z;` (level 3), `}` (level 1), `propagate` raises the closing-brace
    statement to level 3 in the first pass, but the opening-brace statement
    stays at level 1: the second pass runs forward (the source never calls
    `reverse`), so the brace statement does not inherit the level of the
    statement immediately following it. -/
theorem propagate_second_pass_not_backward :
    propagate [⟨1, 1, "if (x) \x7b".data⟩, ⟨2, 3, "y = z;".data⟩,
               ⟨3, 1, "\x7d".data⟩] =
      [⟨1, 1, "if (x) \x7b".data⟩, ⟨2, 3, "y = z;".data⟩,
       ⟨3, 3, "\x7d".data⟩] := by decide

lemma scanOperands_diags_mono (decl : Namespace) :
    ∀ (toks : List (List Char)) (u : UsedSet) (lvl : Int) (ds : List Diag)
      (x : Diag), x ∈ ds → x ∈ (scanOperands decl toks u lvl ds).2.2 := by
  intro toks
  induction toks with
  | nil =>
    intro u lvl ds x hx
    simpa [scanOperands] using hx
  | cons t ts ih =>
    intro u lvl ds x hx
    simp only [scanOperands]
    cases hk : pyDictGet? decl t with
    | none => exact ih _ _ _ _ hx
    | some d =>
      dsimp only
      by_cases h6 : d.level = 6
      · rw [if_pos h6]
        exact ih _ _ _ _ (by simp [hx])
      · rw [if_neg h6]
        by_cases hgt : d.level > lvl
        · rw [if_pos hgt]
          exact ih _ _ _ _ hx
        · rw [if_neg hgt]
          exact ih _ _ _ _ hx

lemma scanOperands_acc_mem (decl : Namespace) (t : List Char) (d : Decl)
    (hd : pyDictGet? decl t = some d) (h6 : d.level = 6) :
    ∀ (toks : List (List Char)), t ∈ toks → ∀ (u : UsedSet) (lvl : Int)
      (ds : List Diag),
      Diag.accumulatorRvalue ∈ (scanOperands decl toks u lvl ds).2.2 := by
  intro toks
  induction toks with
  | nil => intro h; cases h
  | cons a ts ih =>
    intro hmem u lvl ds
    simp only [scanOperands]
    rcases List.mem_cons.mp hmem with heq | htail
    · subst heq
      rw [hd]
      dsimp only
      rw [if_pos h6]
      exact scanOperands_diags_mono decl ts _ _ _ _ (by simp)
    · cases hk : pyDictGet? decl a with
      | none => exact ih htail _ _ _
      | some d2 =>
        dsimp only
        by_cases h62 : d2.level = 6
        · rw [if_pos h62]
          exact ih htail _ _ _
        · rw [if_neg h62]
          by_cases hgt : d2.level > lvl
          · rw [if_pos hgt]
            exact ih htail _ _ _
          · rw [if_neg hgt]
            exact ih htail _ _ _

/-- C1 (counterexample): feeding the body `x = a ;` / `}` to `levelise` with
    `a` at level 6 does NOT abort: the run returns successfully, the
    statement is appended to the statement list, and the scan continues to
    the closing brace; the accumulator-rvalue `#error` is merely printed
    into the output. -/
theorem accumulator_rvalue_abort_counterexample :
    (exOk? (levelise ("x = a ;\n".data) 1 declAccFix [] []
        ["\x7d\n".data])).map (fun o => (o.diags, o.stmts, o.line)) =
      some ([Diag.accumulatorRvalue], [⟨1, 1, "x = a ;".data⟩],
            "\x7d\n".data) := by decide

/-- C1 (amended): reading a level-6 quantity as an operand of a
    non-assignment statement makes `levelise` print the documented
    accumulator-rvalue diagnostic, but processing continues: the iteration
    succeeds, the namespace is untouched and the statement is still
    appended. -/
theorem accumulator_rvalue_diag_without_abort (line : List Char)
    (lineno : Int) (decl : Namespace) (stmts : List Stmt) (used : UsedSet)
    (files : List (List Char)) (t : List Char) (d : Decl)
    (hA : isAssignBranch decl (ctok_nspace line).1 = false)
    (hB : (pyStrip line).headD ' ' ≠ '#')
    (ht : t ∈ (ctok_nspace line).1)
    (hd : pyDictGet? decl t = some d) (h6 : d.level = 6) :
    ∃ out, leveliseIter line lineno decl stmts used files = some out ∧
      Diag.accumulatorRvalue ∈ out.diags ∧ out.decl = decl ∧
      ∃ lvl, out.stmts = stmts ++ [⟨lineno, lvl, pyStrip line⟩] := by
  simp only [leveliseIter]
  rw [hA]
  simp only [Bool.false_eq_true, if_false]
  rw [if_neg (fun h => hB h.2)]
  exact ⟨_, rfl, scanOperands_acc_mem decl t d hd h6 _ ht _ _ _, rfl, _, rfl⟩

/-- Witness for the amended C1 theorem at the concrete statement
    `foo ( a ) ;` with `a` at level 6. -/
theorem accumulator_rvalue_diag_without_abort_witness :
    (isAssignBranch declAccFix (ctok_nspace ("foo ( a ) ;\n".data)).1 =
      false) ∧
    ((pyStrip ("foo ( a ) ;\n".data)).headD ' ' ≠ '#') ∧
    ("a".data ∈ (ctok_nspace ("foo ( a ) ;\n".data)).1) ∧
    (pyDictGet? declAccFix ("a".data) =
      some (mkDecl ("a".data) 6 (-1) ("float".data))) ∧
    (∃ out, leveliseIter ("foo ( a ) ;\n".data) 4 declAccFix [] [] [] =
        some out ∧
      Diag.accumulatorRvalue ∈ out.diags ∧ out.decl = declAccFix ∧
      ∃ lvl, out.stmts =
        [] ++ [⟨4, lvl, pyStrip ("foo ( a ) ;\n".data)⟩]) :=
  ⟨by decide, by decide, by decide, by decide,
   accumulator_rvalue_diag_without_abort ("foo ( a ) ;\n".data) 4 declAccFix
     [] [] [] ("a".data) (mkDecl ("a".data) 6 (-1) ("float".data))
     (by decide) (by decide) (by decide) (by decide) (by decide)⟩

/-- C2 (code evaluation): the stored level of a target CAN decrease.  After
    `s = f_dt ;` the stored level of `s` is 3, but the subsequent
    `s = f_t ;` sets it back to 1: the source assigns the freshly computed
    right-hand-side level unconditionally instead of taking the maximum. -/
theorem assignment_can_lower_stored_level :
    ((leveliseIter ("s = f_dt ;\n".data) 1 declLevelFix [] []
        ["s = f_t ;\n".data, "\x7d\n".data]).map
      (fun o => (pyDictGet? o.decl ("s".data)).map Decl.level)) =
      some (some 3) ∧
    ((exOk? (levelise ("s = f_dt ;\n".data) 1 declLevelFix [] []
        ["s = f_t ;\n".data, "\x7d\n".data])).map
      (fun o => (pyDictGet? o.decl ("s".data)).map Decl.level)) =
      some (some 1) := by decide

/-- C6 (code evaluation): assigning to the `const` built-in `f_t`
    (registered, as all built-ins are, with line number -1) produces NO
    diagnostic and NO abort — the statement is accepted.  The source's check
    requires `target.lineno == 0`, which no built-in satisfies, and even
    when it fires it only prints, as the companion evaluation with a
    line-number-0 declaration shows. -/
theorem const_builtin_assignment_unchecked :
    ((leveliseIter ("f_t = 1 ;\n".data) 4 declConstFix [] []
        ["\x7d\n".data]).map (fun o => (o.diags, o.stmts))) =
      some ([], [⟨4, 1, "f_t = 1 ;".data⟩]) ∧
    ((leveliseIter ("f_t = 1 ;\n".data) 4
        [("f_t".data, mkDecl ("f_t".data) 1 0 ("const unsigned int".data))]
        [] [] ["\x7d\n".data]).map (fun o => (o.diags, o.stmts))) =
      some ([Diag.assigningToConst], [⟨4, 1, "f_t = 1 ;".data⟩]) := by decide

/-- C4 (code evaluation): inserting `float y ;` with contribution-fallback
    text `x`, where `x` already names a declaration in the first namespace,
    records NOTHING in the first used-set: the assignment `used[0] = t`
    overwrites slot 0 of the function-local list with the string (visible in
    `slots`), and the used-set dict itself stays empty. -/
theorem contrib_identifiers_not_recorded :
    ((ins_decl [nsContribFix] [[]] ("float y ;".data) 1 [] 7 [] []
        ("x".data) []).1 = []) ∧
    ((exOk? (ins_decl [nsContribFix] [[]] ("float y ;".data) 1 [] 7 [] []
        ("x".data) []).2).map
      (fun o => (o.usets, o.slots, pyDictHas (o.nss.headD []) ("x".data)))) =
      some ([[]], [Sum.inr ("x".data)], true) := by decide

/-- C7 (counterexample): the declaration `float x /* blah;` carries an
    unterminated block comment, yet the run does NOT abort: the
    multiline-comment `#error` is printed and the declaration is still
    accepted into the namespace. -/
theorem unterminated_comment_abort_counterexample :
    ((ins_decl [[]] [[]] ("float x /* blah;".data) 1 [] 7 [] [] [] []).1 =
      [Diag.multilineComment]) ∧
    ((exOk? (ins_decl [[]] [[]] ("float x /* blah;".data) 1 [] 7 [] []
        [] []).2).map
      (fun o => pyDictHas (o.nss.headD []) ("x".data))) = some true := by
  decide

/-- C7 (amended): a `/*` after position 0 with no matching `*/` makes
    `ins_decl` print the multiline-comment `#error` and then CONTINUE
    parsing the very same line, comment left in place; the outcome is
    whatever the rest of the line yields, not an abort at the comment
    check. -/
theorem unterminated_comment_diag_continues (namespaces : List Namespace)
    (used : List UsedSet) (line : List Char) (lvl : Int) (m : List Char)
    (ln : Int) (f p c e : List Char)
    (h1 : pyFind (hashStrip line).2 ("/*".data) > 0)
    (h2 : ¬ pyFind (hashStrip line).2 ("*/".data) > 0) :
    ins_decl namespaces used line lvl m ln f p c e =
      ([Diag.multilineComment],
       insDeclRest namespaces used (hashStrip line).2 (hashStrip line).1
         lvl m ln f p c e) := by
  simp only [ins_decl, stripComments, blockStrip]
  rw [if_pos h1, if_neg h2]

/-- Witness for the amended C7 theorem at `float x /* blah;`. -/
theorem unterminated_comment_diag_continues_witness :
    (pyFind (hashStrip ("float x /* blah;".data)).2 ("/*".data) > 0) ∧
    (¬ pyFind (hashStrip ("float x /* blah;".data)).2 ("*/".data) > 0) ∧
    (ins_decl [[]] [[]] ("float x /* blah;".data) 1 [] 7 [] [] [] [] =
      ([Diag.multilineComment],
       insDeclRest [[]] [[]] (hashStrip ("float x /* blah;".data)).2
         (hashStrip ("float x /* blah;".data)).1 1 [] 7 [] [] [] [])) :=
  ⟨by decide, by decide,
   unterminated_comment_diag_continues [[]] [[]] ("float x /* blah;".data)
     1 [] 7 [] [] [] [] (by decide) (by decide)⟩

lemma pyDictGet?_append_cases (k : List Char) (v : Decl) (k2 : List Char)
    (dd : Decl) : ∀ (n : Namespace),
    pyDictGet? (n ++ [(k, v)]) k2 = some dd →
    pyDictGet? n k2 = some dd ∨ dd = v := by
  intro n
  induction n with
  | nil =>
    intro h
    simp only [List.nil_append, pyDictGet?, List.find?] at h
    by_cases he : k = k2
    · simp only [he, decide_True] at h
      right
      simpa using h.symm
    · simp [he] at h
  | cons a rest ih =>
    intro h
    simp only [List.cons_append, pyDictGet?, List.find?] at h ⊢
    by_cases he : a.1 = k2
    · simp only [he, decide_True] at h ⊢
      left
      exact h
    · simp only [he, decide_False] at h ⊢
      exact ih h

lemma pyDictSet_append (n : Namespace) (k : List Char) (v : Decl)
    (h : pyDictHas n k = false) : pyDictSet n k v = n ++ [(k, v)] := by
  simp [pyDictSet, h]

lemma ins_decl_inserts_level (ns : List Namespace) (used : List UsedSet)
    (line : List Char) (lvl : Int) (m : List Char) (ln : Int)
    (f p c e : List Char) (ds : List Diag) (out : InsOut)
    (h : ins_decl ns used line lvl m ln f p c e = (ds, Except.ok out)) :
    ∀ n2 ∈ out.nss, ∀ (k : List Char) (dd : Decl),
      pyDictGet? n2 k = some dd →
      (∃ n1 ∈ ns, pyDictGet? n1 k = some dd) ∨ dd.level = lvl := by
  simp only [ins_decl, Prod.mk.injEq] at h
  obtain ⟨hds, hrest⟩ := h
  unfold insDeclRest at hrest
  dsimp only at hrest
  split at hrest
  · exact absurd hrest (by simp)
  · rename_i ty toks1 heq
    split at hrest
    · exact absurd hrest (by simp)
    · rename_i t0 trest
      split at hrest
      · exact absurd hrest (by simp)
      · rename_i hcoll
        split at hrest
        · split at hrest
          · exact absurd hrest (by simp)
          · rename_i hsemi toks2 off hoff
            simp only [Except.ok.injEq] at hrest
            subst hrest
            intro n2 hn2 k dd hget
            simp only [insAccept, List.mem_map] at hn2
            obtain ⟨n1, hn1, hset⟩ := hn2
            have hhas : pyDictHas n1 t0 = false := by
              by_contra hc
              have : ns.any (fun n => pyDictHas n t0) = true :=
                List.any_eq_true.mpr ⟨n1, hn1, by simpa using hc⟩
              simp [this] at hcoll
            rw [pyDictSet_append n1 t0 _ hhas] at hset
            subst hset
            rcases pyDictGet?_append_cases t0 _ k dd n1 hget with hold | hnew
            · exact Or.inl ⟨n1, hn1, hold⟩
            · subst hnew
              exact Or.inr rfl
        · exact absurd hrest (by simp)

lemma process_decl_line_next (line : List Char) (lineno : Int)
    (decl : Namespace) (du : UsedSet) (ds : List Diag) (d2 : Namespace)
    (u2 : UsedSet)
    (h : process_decl_line line lineno decl du = ScanStep.next ds d2 u2) :
    ∀ (k : List Char) (dd : Decl), pyDictGet? d2 k = some dd →
      pyDictGet? decl k = some dd ∨ dd.level = 1 := by
  unfold process_decl_line at h
  split at h
  · exact absurd h (by simp)
  · split at h
    · exact absurd h (by simp)
    · split at h
      · split at h
        · exact absurd h (by simp)
        · rename_i t trest heq
          split at h
          · split at h
            · rename_i e hins
              exact absurd h (by simp)
            · rename_i out hins
              split at h
              · rename_i dd2 uu2 hnss husets
                simp only [ScanStep.next.injEq] at h
                obtain ⟨hds2, hd2, hu2⟩ := h
                subst hd2
                intro k dd hk
                rcases ins_decl_inserts_level [decl] [du] line 1 [] lineno
                    [] [] [] ("user declared quantity".data) _ out hins
                    dd2 (by rw [hnss]; simp) k dd hk with ⟨n1, hn1, hold⟩ | hl
                · simp only [List.mem_singleton] at hn1
                  subst hn1
                  exact Or.inl hold
                · exact Or.inr hl
              · exact absurd h (by simp)
          · exact absurd h (by simp)
      · simp only [ScanStep.next.injEq] at h
        obtain ⟨hds2, hd2, hu2⟩ := h
        subst hd2
        intro k dd hk
        exact Or.inl hk

lemma process_decl_go_new_level :
    ∀ (files : List (List Char)) (line : List Char) (lineno : Int)
      (decl : Namespace) (du : UsedSet) (r : DeclScanOut),
      (process_decl_go line lineno decl du files).2 = Except.ok r →
      ∀ (k : List Char) (dd : Decl), pyDictGet? r.decl k = some dd →
        pyDictGet? decl k = some dd ∨ dd.level = 1 := by
  intro files
  induction files with
  | nil =>
    intro line lineno decl du r h k dd hk
    unfold process_decl_go at h
    split at h
    · exact absurd h (by simp)
    · rename_i ds hline
      simp only [Except.ok.injEq] at h
      subst h
      exact Or.inl hk
    · exact absurd h (by simp)
  | cons l rest ih =>
    intro line lineno decl du r h k dd hk
    unfold process_decl_go at h
    split at h
    · exact absurd h (by simp)
    · rename_i ds hline
      simp only [Except.ok.injEq] at h
      subst h
      exact Or.inl hk
    · rename_i ds d2 u2 hline
      simp only at h
      rcases ih l (lineno + 1) d2 u2 r h k dd hk with hmid | hlvl
      · exact process_decl_line_next line lineno decl du ds d2 u2 hline k dd hmid
      · exact Or.inr hlvl


/-- C5 (counterexample): the body declaration `float s;` is inserted with
    stored level 1, not 2. -/
theorem body_decl_level_counterexample :
    ((exOk? (process_decl ["  float s;\n".data, "\x7d\n".data] [] [] 1).2).map
      (fun r => (pyDictGet? r.decl ("s".data)).map Decl.level)) =
      some (some 1) ∧ (1 : Int) ≠ 2 := by decide

/-- C5 (amended): every quantity the body declaration scanner adds to a
    body namespace (every name present after a successful scan that was not
    present before) has initial stored level 1, because each consumed
    declaration line is passed to `ins_decl` at level 1. -/
theorem body_decls_inserted_at_level_one (files : List (List Char))
    (decl : Namespace) (du : UsedSet) (lineno : Int) (r : DeclScanOut)
    (k : List Char) (dd : Decl)
    (h : (process_decl files decl du lineno).2 = Except.ok r)
    (hnew : pyDictGet? decl k = none)
    (hk : pyDictGet? r.decl k = some dd) : dd.level = 1 := by
  unfold process_decl at h
  split at h
  · exact absurd h (by simp)
  · rcases process_decl_go_new_level _ _ _ _ _ _ h k dd hk with hold | hlvl
    · rw [hnew] at hold
      cases hold
    · exact hlvl

/-- Witness for the amended C5 theorem on the body `  float s;` / `}`. -/
theorem body_decls_inserted_at_level_one_witness :
    ((process_decl ["  float s;\n".data, "\x7d\n".data] [] [] 1).2 =
      Except.ok declScanFix) ∧
    (pyDictGet? [] ("s".data) = none) ∧
    (pyDictGet? declScanFix.decl ("s".data) = some sDeclFix) ∧
    sDeclFix.level = 1 :=
  ⟨by decide, by decide, by decide,
   body_decls_inserted_at_level_one
     ["  float s;\n".data, "\x7d\n".data] [] [] 1 declScanFix ("s".data)
     sDeclFix (by decide) (by decide) (by decide)⟩

lemma weaveToksAux_no_marker (name : List Char) :
    ∀ (fuel : Nat) (post : List (List Char)), post.length ≤ fuel →
      (∀ t ∈ post, t ≠ "/*".data) →
      weaveToksAux name fuel post = some post.flatten := by
  intro fuel
  induction fuel with
  | zero =>
    intro post hlen hm
    have hp : post = [] := List.length_eq_zero.mp (Nat.le_zero.mp hlen)
    subst hp
    simp [weaveToksAux]
  | succ fuel ih =>
    intro post hlen hm
    cases post with
    | nil => simp [weaveToksAux]
    | cons t0 rest =>
      simp only [List.length_cons, Nat.succ_le_succ_iff] at hlen
      have ht0 : t0 ≠ "/*".data := hm t0 (List.mem_cons_self t0 rest)
      simp only [weaveToksAux]
      rw [if_neg (fun hc => ht0 hc.1), if_neg (fun hc => ht0 hc.1)]
      rw [ih rest hlen (fun t ht => hm t (List.mem_cons_of_mem t0 ht))]
      simp [List.flatten_cons]

lemma weaveToksAux_marker (name : List Char) :
    ∀ (fuel : Nat) (pre post : List (List Char)),
      (pre ++ markerToks ++ post).length ≤ fuel →
      (∀ t ∈ pre, t ≠ "/*".data) → (∀ t ∈ post, t ≠ "/*".data) →
      weaveToksAux name fuel (pre ++ markerToks ++ post) =
        some (pre.flatten ++ "/* METRIC_NAME */ ".data ++ name ++
              post.flatten) := by
  intro fuel
  induction fuel with
  | zero =>
    intro pre post hlen hpre hpost
    exfalso
    simp [markerToks] at hlen
  | succ fuel ih =>
    intro pre post hlen hpre hpost
    cases pre with
    | nil =>
      have hplen : post.length ≤ fuel := by
        simp only [List.nil_append, markerToks, List.cons_append,
          List.length_cons, List.length_append, markerToks,
          List.length_cons] at hlen
        omega
      have hrec := weaveToksAux_no_marker name fuel post hplen hpost
      show (match weaveToksAux name fuel post with
            | none => none
            | some out => some ("/* METRIC_NAME */ ".data ++ name ++ out)) =
          some (([] : List (List Char)).flatten ++
            "/* METRIC_NAME */ ".data ++ name ++ post.flatten)
      rw [hrec]
      simp
    | cons t0 pre2 =>
      simp only [List.cons_append, List.length_cons,
        Nat.succ_le_succ_iff] at hlen
      have ht0 : t0 ≠ "/*".data := hpre t0 (List.mem_cons_self t0 pre2)
      have hrec := ih pre2 post hlen
        (fun t ht => hpre t (List.mem_cons_of_mem t0 ht)) hpost
      simp only [weaveToksAux]
      rw [if_neg (fun hc => ht0 hc.1), if_neg (fun hc => ht0 hc.1)]
      have hrec2 : weaveToksAux name fuel ((pre2.append markerToks).append post) =
          some (pre2.flatten ++ "/* METRIC_NAME */ ".data ++ name ++
            post.flatten) := hrec
      rw [hrec2]
      simp [List.flatten_cons, List.append_assoc]


/-- C8: processing a template-body token list that contains the contiguous
    marker `/* METRIC_NAME */` (here with single-space separation) emits,
    at the marker's position, the canonical marker text followed by a space
    and the metric name, and copies every other token of the line through
    to the output unchanged. -/
theorem metric_name_marker_emission (name : List Char)
    (pre post : List (List Char))
    (hpre : ∀ t ∈ pre, t ≠ "/*".data) (hpost : ∀ t ∈ post, t ≠ "/*".data) :
    weaveToks name (pre ++ markerToks ++ post) =
      some (pre.flatten ++ "/* METRIC_NAME */ ".data ++ name ++
            post.flatten) :=
  weaveToksAux_marker name (pre ++ markerToks ++ post).length pre post
    le_rfl hpre hpost

/-- Witness for C8: the tokens of `typedef /* METRIC_NAME */ foo;` under
    base name `bm25` (derived from the description file name `bm25.metric`)
    weave to `typedef /* METRIC_NAME */ bm25 foo;` exactly. -/
theorem metric_name_marker_emission_witness :
    (∀ t ∈ [("typedef".data : List Char), " ".data], t ≠ "/*".data) ∧
    (∀ t ∈ [(" ".data : List Char), "foo".data, ";".data, "\n".data],
      t ≠ "/*".data) ∧
    (baseName ("bm25.metric".data) = "bm25".data) ∧
    ((ctok ("typedef /* METRIC_NAME */ foo;\n".data)).1 =
      ["typedef".data, " ".data] ++ markerToks ++
        [" ".data, "foo".data, ";".data, "\n".data]) ∧
    (weaveToks (baseName ("bm25.metric".data))
        ((ctok ("typedef /* METRIC_NAME */ foo;\n".data)).1) =
      some ("typedef /* METRIC_NAME */ bm25 foo;\n".data)) := by
  refine ⟨by decide, by decide, by decide, by decide, ?_⟩
  rw [(by decide : (ctok ("typedef /* METRIC_NAME */ foo;\n".data)).1 =
    ["typedef".data, " ".data] ++ markerToks ++
      [" ".data, "foo".data, ";".data, "\n".data])]
  exact (metric_name_marker_emission (baseName ("bm25.metric".data)) _ _
    (by decide) (by decide)).trans (by decide)

end Metric
